import Mathlib

/-!
# Reslify — verification of the DHT file-sharing core

A shallow embedding of the core of the Reslify repository (a DHT-based
file announce / retrieve node) together with proofs about it.

Embedded components, each translated from the JavaScript source:

* `sha256` / topic derivation — models `crypto.createHash('sha256').update(id).digest()`
  as used in `src/services/dht.service.js` (`announceFile`) and in the
  downloader client in `db.js` (`FileDownloader.findAndDownload`).
* `DHTState` / `announceFile` / `getFilePath` / `getFileMetadata` / `hasFile`
  — the `DHTService` class in `src/services/dht.service.js`.
* `handleData` / `dispatch` — the per-connection wire-protocol handler
  installed by `DHTService.setupConnectionHandler`.
* `b64encode` / `b64decode` — `Buffer.toString('base64')` and its inverse,
  used for the `content` field of the wire response.
* `getFileMetadataDb`, `getAllFilesDb`, `fileExistsDb`, … — the Cassandra
  metadata-store wrappers in `db.js`, modelled over an explicit round-trip
  outcome.
* `rehydrateDHT` — the startup reconciler in `server.js`.

JavaScript `Map` objects are modelled as association lists with
insert-or-overwrite semantics; the file system is an explicit partial map
from paths to byte lists; machine words in SHA-256 are `Nat` reduced
`% 2 ^ 32`.
-/

namespace Reslify

/-! ## Association-list maps (JS `Map` semantics: lookup and overwriting set) -/

/-- JS `Map.get`: first entry with the given key. -/
def mapGet {α : Type} (k : String) (l : List (String × α)) : Option α :=
  (l.find? (fun p => p.1 == k)).map (fun p => p.2)

/-- JS `Map.set`: insert-or-overwrite by key. -/
def mapSet {α : Type} (k : String) (v : α) (l : List (String × α)) :
    List (String × α) :=
  (k, v) :: l.filter (fun p => p.1 != k)

theorem mapGet_mapSet_self {α : Type} (k : String) (v : α)
    (l : List (String × α)) : mapGet k (mapSet k v l) = some v := by
  simp [mapGet, mapSet, List.find?]

theorem find?_filter_ne {α : Type} (k k' : String) (hk : k' ≠ k) :
    ∀ l : List (String × α),
      (l.filter (fun p => p.1 != k)).find? (fun p => p.1 == k') =
        l.find? (fun p => p.1 == k')
  | [] => rfl
  | (a, b) :: t => by
    by_cases hak : a = k
    · have hne : a ≠ k' := by rw [hak]; exact fun h => hk h.symm
      have h1 : ((a, b).1 != k) = false := by simp [hak]
      have h2 : ((a, b).1 == k') = false := by simp [hne]
      simp only [List.filter, h1, List.find?, h2, cond_false]
      exact find?_filter_ne k k' hk t
    · by_cases hak' : a = k'
      · have h1 : ((a, b).1 != k) = true := by simp [hak]
        have h2 : ((a, b).1 == k') = true := by simp [hak']
        simp [List.filter, h1, List.find?, h2]
      · have h1 : ((a, b).1 != k) = true := by simp [hak]
        have h2 : ((a, b).1 == k') = false := by simp [hak']
        simp only [List.filter, h1, List.find?, h2, cond_false]
        exact find?_filter_ne k k' hk t

theorem mapGet_mapSet_ne {α : Type} (k k' : String) (v : α)
    (l : List (String × α)) (hk : k' ≠ k) :
    mapGet k' (mapSet k v l) = mapGet k' l := by
  have h2 : ((k, v).1 == k') = false := by
    simp [show k ≠ k' from fun h => hk h.symm]
  simp only [mapGet, mapSet, List.find?, h2, cond_false]
  rw [find?_filter_ne k k' hk l]

theorem filter_idem {α : Type} (p : α → Bool) :
    ∀ l : List α, (l.filter p).filter p = l.filter p
  | [] => rfl
  | a :: t => by
    by_cases h : p a
    · simp [List.filter, h, filter_idem p t]
    · simp [List.filter, (Bool.not_eq_true _).mp h, filter_idem p t]

/-- Overwriting the same key twice leaves only the second value:
the state equals the one produced by the second `set` alone. -/
theorem mapSet_mapSet {α : Type} (k : String) (v1 v2 : α)
    (l : List (String × α)) :
    mapSet k v2 (mapSet k v1 l) = mapSet k v2 l := by
  have h1 : ((k, v1).1 != k) = false := by simp
  simp only [mapSet, List.filter, h1]
  rw [filter_idem]

/-! ## SHA-256 (models Node's `crypto.createHash('sha256')`)

32-bit words are `Nat` values kept below `2 ^ 32`; every arithmetic step
that could overflow is reduced `% 2 ^ 32`. Bytes are `Nat` values below 256.
-/

/-- Right rotation of a 32-bit word (input assumed `< 2 ^ 32`). -/
def rotr (n x : Nat) : Nat := x % 2 ^ n * 2 ^ (32 - n) + x / 2 ^ n

/-- Bitwise complement on 32 bits. -/
def compl32 (x : Nat) : Nat := Nat.xor x (2 ^ 32 - 1)

def chWord (e f g : Nat) : Nat := Nat.xor (Nat.land e f) (Nat.land (compl32 e) g)

def majWord (a b c : Nat) : Nat :=
  Nat.xor (Nat.xor (Nat.land a b) (Nat.land a c)) (Nat.land b c)

def bigSigma0 (x : Nat) : Nat := Nat.xor (Nat.xor (rotr 2 x) (rotr 13 x)) (rotr 22 x)
def bigSigma1 (x : Nat) : Nat := Nat.xor (Nat.xor (rotr 6 x) (rotr 11 x)) (rotr 25 x)
def smallSigma0 (x : Nat) : Nat := Nat.xor (Nat.xor (rotr 7 x) (rotr 18 x)) (x / 2 ^ 3)
def smallSigma1 (x : Nat) : Nat := Nat.xor (Nat.xor (rotr 17 x) (rotr 19 x)) (x / 2 ^ 10)

/-- The 64 SHA-256 round constants of FIPS 180-4 (in decimal). -/
def sha256K : List Nat :=
  [1116352408, 1899447441, 3049323471, 3921009573, 961987163,
   1508970993, 2453635748, 2870763221, 3624381080, 310598401,
   607225278, 1426881987, 1925078388, 2162078206, 2614888103,
   3248222580, 3835390401, 4022224774, 264347078, 604807628,
   770255983, 1249150122, 1555081692, 1996064986, 2554220882,
   2821834349, 2952996808, 3210313671, 3336571891, 3584528711,
   113926993, 338241895, 666307205, 773529912, 1294757372,
   1396182291, 1695183700, 1986661051, 2177026350, 2456956037,
   2730485921, 2820302411, 3259730800, 3345764771, 3516065817,
   3600352804, 4094571909, 275423344, 430227734, 506948616,
   659060556, 883997877, 958139571, 1322822218, 1537002063,
   1747873779, 1955562222, 2024104815, 2227730452, 2361852424,
   2428436474, 2756734187, 3204031479, 3329325298]

/-- The eight 32-bit words of the hash state. -/
structure Hash8 where
  a : Nat
  b : Nat
  c : Nat
  d : Nat
  e : Nat
  f : Nat
  g : Nat
  h : Nat
deriving DecidableEq, Repr

/-- SHA-256 initial hash value (FIPS 180-4, in decimal). -/
def sha256H0 : Hash8 :=
  ⟨1779033703, 3144134277, 1013904242, 2773480762,
   1359893119, 2600822924, 528734635, 1541459225⟩

/-- Big-endian 4-byte encoding of a 32-bit word. -/
def toBE4 (n : Nat) : List Nat :=
  [n / 2 ^ 24 % 256, n / 2 ^ 16 % 256, n / 2 ^ 8 % 256, n % 256]

/-- Big-endian 8-byte encoding of a 64-bit value. -/
def toBE8 (n : Nat) : List Nat :=
  [n / 2 ^ 56 % 256, n / 2 ^ 48 % 256, n / 2 ^ 40 % 256, n / 2 ^ 32 % 256,
   n / 2 ^ 24 % 256, n / 2 ^ 16 % 256, n / 2 ^ 8 % 256, n % 256]

/-- SHA-256 padding: append `0x80`, zeros to 56 mod 64, then the bit length
as 8 big-endian bytes. -/
def sha256Pad (msg : List Nat) : List Nat :=
  msg ++ 0x80 :: List.replicate ((119 - msg.length % 64) % 64) 0 ++
    toBE8 (msg.length * 8)

/-- Split a byte list into 64-byte blocks. -/
def toBlocks (l : List Nat) : List (List Nat) :=
  if l = [] then []
  else l.take 64 :: toBlocks (l.drop 64)
termination_by l.length
decreasing_by
  simp only [List.length_drop]
  have : l.length ≠ 0 := fun h => by
    simp [List.eq_nil_of_length_eq_zero h] at *
  omega

/-- Parse a 64-byte block into 16 big-endian 32-bit words. -/
def toWords : List Nat → List Nat
  | b0 :: b1 :: b2 :: b3 :: rest =>
    (b0 * 2 ^ 24 + b1 * 2 ^ 16 + b2 * 2 ^ 8 + b3) :: toWords rest
  | _ => []

/-- One step of the message-schedule extension (appends word `w[i]` for the
current length `i`). -/
def scheduleStep (acc : List Nat) : List Nat :=
  let n := acc.length
  acc ++ [(smallSigma1 (acc.getD (n - 2) 0) + acc.getD (n - 7) 0 +
           smallSigma0 (acc.getD (n - 15) 0) + acc.getD (n - 16) 0) % 2 ^ 32]

/-- Extend the 16 block words to the 64-word message schedule. -/
def sha256Schedule (ws : List Nat) : List Nat := Nat.iterate scheduleStep 48 ws

/-- One SHA-256 compression round. -/
def sha256Round (st : Hash8) (k w : Nat) : Hash8 :=
  let t1 := (st.h + bigSigma1 st.e + chWord st.e st.f st.g + k + w) % 2 ^ 32
  let t2 := (bigSigma0 st.a + majWord st.a st.b st.c) % 2 ^ 32
  ⟨(t1 + t2) % 2 ^ 32, st.a, st.b, st.c, (st.d + t1) % 2 ^ 32, st.e, st.f, st.g⟩

/-- Compress one 64-byte block into the running hash state. -/
def sha256Block (h0 : Hash8) (block : List Nat) : Hash8 :=
  let ws := sha256Schedule (toWords block)
  let st := (sha256K.zip ws).foldl (fun s kw => sha256Round s kw.1 kw.2) h0
  ⟨(h0.a + st.a) % 2 ^ 32, (h0.b + st.b) % 2 ^ 32, (h0.c + st.c) % 2 ^ 32,
   (h0.d + st.d) % 2 ^ 32, (h0.e + st.e) % 2 ^ 32, (h0.f + st.f) % 2 ^ 32,
   (h0.g + st.g) % 2 ^ 32, (h0.h + st.h) % 2 ^ 32⟩

/-- SHA-256 of a byte list, as the 32-byte big-endian digest. -/
def sha256 (msg : List Nat) : List Nat :=
  let fin := (toBlocks (sha256Pad msg)).foldl sha256Block sha256H0
  toBE4 fin.a ++ toBE4 fin.b ++ toBE4 fin.c ++ toBE4 fin.d ++
    toBE4 fin.e ++ toBE4 fin.f ++ toBE4 fin.g ++ toBE4 fin.h

/-- UTF-8 bytes of a string (models what `hash.update(string)` hashes). -/
def utf8Bytes (s : String) : List Nat := s.toUTF8.toList.map (fun b => b.toNat)

/-- Topic derivation as done by `DHTService.announceFile`
(`crypto.createHash('sha256').update(fileId).digest()`). -/
def deriveTopicServer (fileId : String) : List Nat := sha256 (utf8Bytes fileId)

/-- Topic derivation as done by the lookup client
`FileDownloader.findAndDownload` in `db.js` (same expression). -/
def deriveTopicClient (fileId : String) : List Nat := sha256 (utf8Bytes fileId)

/-- The SHA-256 digest is always exactly 32 bytes. -/
theorem sha256_length (msg : List Nat) : (sha256 msg).length = 32 := by
  simp [sha256, toBE4]

/-! ## Hex and base64 encodings

`topicHex` models `topic.toString('hex')`; `b64encode` models
`fileContent.toString('base64')` and `b64decode` the client-side
`Buffer.from(content, 'base64')`. -/

def hexDigit (n : Nat) : Char := "0123456789abcdef".data.getD n '?'

/-- Lower-case hex string of a byte list. -/
def bytesToHex (l : List Nat) : List Char :=
  l.flatMap (fun b => [hexDigit (b / 16), hexDigit (b % 16)])

def b64Alphabet : List Char :=
  "ABCDEFGHIJKLMNOPQRSTUVWXYZabcdefghijklmnopqrstuvwxyz0123456789+/".data

def b64chr (n : Nat) : Char := b64Alphabet.getD n '?'

def b64val (c : Char) : Nat := b64Alphabet.indexOf c

/-- Standard base64 encoding with `=` padding. -/
def b64encode : List Nat → List Char
  | [] => []
  | [b1] => [b64chr (b1 / 4), b64chr (b1 % 4 * 16), '=', '=']
  | [b1, b2] => [b64chr (b1 / 4), b64chr (b1 % 4 * 16 + b2 / 16),
                 b64chr (b2 % 16 * 4), '=']
  | b1 :: b2 :: b3 :: rest =>
    b64chr (b1 / 4) :: b64chr (b1 % 4 * 16 + b2 / 16) ::
      b64chr (b2 % 16 * 4 + b3 / 64) :: b64chr (b3 % 64) :: b64encode rest

/-- Standard base64 decoding (padding-aware). -/
def b64decode : List Char → List Nat
  | c1 :: c2 :: c3 :: c4 :: rest =>
    if c3 = '=' then [b64val c1 * 4 + b64val c2 / 16]
    else if c4 = '=' then
      [b64val c1 * 4 + b64val c2 / 16, b64val c2 % 16 * 16 + b64val c3 / 4]
    else (b64val c1 * 4 + b64val c2 / 16) ::
      (b64val c2 % 16 * 16 + b64val c3 / 4) ::
      (b64val c3 % 4 * 64 + b64val c4) :: b64decode rest
  | _ => []

theorem b64val_b64chr : ∀ n < 64, b64val (b64chr n) = n := by decide

theorem b64chr_ne_pad : ∀ n < 64, b64chr n ≠ '=' := by decide

/-- Base64 decoding inverts encoding on byte lists. -/
theorem b64_roundtrip : ∀ P : List Nat, (∀ b ∈ P, b < 256) →
    b64decode (b64encode P) = P := by
  intro P
  induction P using b64encode.induct with
  | case1 => intro _; rfl
  | case2 b1 =>
    intro hb
    have h1 : b1 < 256 := hb b1 (by simp)
    simp only [b64encode, b64decode]
    rw [if_pos trivial, b64val_b64chr (b1 / 4) (by omega),
        b64val_b64chr (b1 % 4 * 16) (by omega)]
    have hx : b1 / 4 * 4 + b1 % 4 * 16 / 16 = b1 := by omega
    rw [hx]
  | case3 b1 b2 =>
    intro hb
    have h1 : b1 < 256 := hb b1 (by simp)
    have h2 : b2 < 256 := hb b2 (by simp)
    have hne : b64chr (b2 % 16 * 4) ≠ '=' := b64chr_ne_pad _ (by omega)
    simp only [b64encode, b64decode]
    rw [if_pos trivial,
        b64val_b64chr (b1 / 4) (by omega),
        b64val_b64chr (b1 % 4 * 16 + b2 / 16) (by omega),
        b64val_b64chr (b2 % 16 * 4) (by omega)]
    have hx1 : b1 / 4 * 4 + (b1 % 4 * 16 + b2 / 16) / 16 = b1 := by omega
    have hx2 : (b1 % 4 * 16 + b2 / 16) % 16 * 16 + b2 % 16 * 4 / 4 = b2 := by
      omega
    rw [hx1, hx2, if_neg hne]
  | case4 b1 b2 b3 rest ih =>
    intro hb
    have h1 : b1 < 256 := hb b1 (by simp)
    have h2 : b2 < 256 := hb b2 (by simp)
    have h3 : b3 < 256 := hb b3 (by simp)
    have hne3 : b64chr (b2 % 16 * 4 + b3 / 64) ≠ '=' := b64chr_ne_pad _ (by omega)
    have hne4 : b64chr (b3 % 64) ≠ '=' := b64chr_ne_pad _ (by omega)
    simp only [b64encode, b64decode]
    rw [if_neg hne3, if_neg hne4,
        b64val_b64chr (b1 / 4) (by omega),
        b64val_b64chr (b1 % 4 * 16 + b2 / 16) (by omega),
        b64val_b64chr (b2 % 16 * 4 + b3 / 64) (by omega),
        b64val_b64chr (b3 % 64) (by omega)]
    have hx1 : b1 / 4 * 4 + (b1 % 4 * 16 + b2 / 16) / 16 = b1 := by omega
    have hx2 : (b1 % 4 * 16 + b2 / 16) % 16 * 16 +
        (b2 % 16 * 4 + b3 / 64) / 4 = b2 := by omega
    have hx3 : (b2 % 16 * 4 + b3 / 64) % 4 * 64 + b3 % 64 = b3 := by omega
    rw [hx1, hx2, hx3, ih (fun b hbm => hb b (by simp [hbm]))]

/-! ## MIME resolution (`src/utils/mime-types.js` / `getMimeType`) -/

/-- The basename of a path: the part after the last `/`
(models `path.extname`'s restriction to the last segment). -/
def basenameChars (l : List Char) : List Char :=
  (l.reverse.takeWhile (fun c => c ≠ '/')).reverse

/-- `path.extname`: from the last `.` of the basename to the end; empty when
there is no `.` or the `.` is the basename's first character. -/
def extnameChars (l : List Char) : List Char :=
  let b := basenameChars l
  let revB := b.reverse
  let afterDot := revB.takeWhile (fun c => c ≠ '.')
  if afterDot.length = revB.length then []
  else if afterDot.length + 1 = revB.length then []
  else '.' :: afterDot.reverse

def mimeTable : List (String × String) :=
  [(".txt", "text/plain"), (".pdf", "application/pdf"),
   (".jpg", "image/jpeg"), (".jpeg", "image/jpeg"),
   (".png", "image/png"), (".gif", "image/gif"),
   (".json", "application/json"), (".zip", "application/zip"),
   (".doc", "application/msword"),
   (".docx", "application/vnd.openxmlformats-officedocument.wordprocessingml.document"),
   (".mp4", "video/mp4"), (".mp3", "audio/mpeg")]

/-- `getMimeType(fileName)`: lower-cased extension looked up in the static
table, defaulting to `application/octet-stream`. -/
def getMimeType (fileName : String) : String :=
  let ext := String.mk ((extnameChars fileName.data).map Char.toLower)
  (mapGet ext mimeTable).getD "application/octet-stream"

/-! ## RendezvousNode state (`DHTService` in `src/services/dht.service.js`)

The class holds two `Map`s (`storedFiles`, `fileIdToPath`) and a Hyperswarm
handle; the swarm's set of joined topics is modelled as a list used as a set
(`swarm.join` of an already-joined topic is a no-op). -/

/-- `SERVER_ADDRESS` from `src/config/constants.js`. -/
def serverAddress : String := "127.0.0.1:3000"

/-- The value stored in `storedFiles` by `announceFile`. -/
structure FileMeta where
  filePath : String
  fileName : String
  topic : List Nat
  size : Nat
  uploadedAt : String
  serverAddress : String
deriving DecidableEq, Repr

/-- The object returned by `announceFile`. -/
structure AnnounceReturn where
  fileId : String
  fileName : String
  topicHex : List Char
  serverAddress : String
deriving DecidableEq, Repr

structure DHTState where
  storedFiles : List (String × FileMeta)
  fileIdToPath : List (String × String)
  joined : List (List Nat)
deriving DecidableEq, Repr

/-- Constructor state: empty maps, no joined topics. -/
def dhtInit : DHTState := ⟨[], [], []⟩

/-- `swarm.join(topic, ...)`: joining an already-joined topic is a no-op. -/
def joinTopic (t : List Nat) (joined : List (List Nat)) : List (List Nat) :=
  if t ∈ joined then joined else t :: joined

/-- `DHTService.announceFile(fileId, filePath, fileName, fileSize)`.
`now` stands for `new Date().toISOString()`, passed explicitly. -/
def announceFile (st : DHTState) (fileId filePath fileName : String)
    (fileSize : Nat) (now : String) : DHTState × AnnounceReturn :=
  let topic := sha256 (utf8Bytes fileId)
  let meta : FileMeta := ⟨filePath, fileName, topic, fileSize, now, serverAddress⟩
  (⟨mapSet fileId meta st.storedFiles,
    mapSet fileId filePath st.fileIdToPath,
    joinTopic topic st.joined⟩,
   ⟨fileId, fileName, bytesToHex topic, serverAddress⟩)

/-- `DHTService.getFilePath`. -/
def getFilePath (st : DHTState) (fileId : String) : Option String :=
  mapGet fileId st.fileIdToPath

/-- `DHTService.getFileMetadata`. -/
def getFileMetadata (st : DHTState) (fileId : String) : Option FileMeta :=
  mapGet fileId st.storedFiles

/-- `DHTService.hasFile`. -/
def hasFile (st : DHTState) (fileId : String) : Bool :=
  (mapGet fileId st.storedFiles).isSome

/-! ## RequestProtocol (the `conn.on('data', ...)` handler of
`DHTService.setupConnectionHandler`) -/

/-- The JSON documents the handler writes: the tagged success/failure union. -/
inductive Response where
  /-- `{success: true, fileId, fileName, size, mimeType, serverAddress, content}` -/
  | success (fileId fileName : String) (size : Nat)
      (mimeType serverAddress : String) (content : List Char) : Response
  /-- `{success: false, error, message}` -/
  | failure (error message : String) : Response
deriving DecidableEq, Repr

def Response.isSuccess : Response → Bool
  | .success _ _ _ _ _ _ => true
  | .failure _ _ => false

/-- Whitespace removed by JS `String.prototype.trim`. -/
def isWsChar (c : Char) : Bool :=
  c = ' ' || c = '\t' || c = '\n' || c = '\r' ||
    c = Char.ofNat 11 || c = Char.ofNat 12

/-- JS `String.prototype.trim` on a character list. -/
def jsTrim (l : List Char) : List Char :=
  ((l.dropWhile isWsChar).reverse.dropWhile isWsChar).reverse

/-- The file system as seen by `fs.readFileSync`: a partial map from paths
to byte lists (`none` = the read throws). -/
def FileSystem : Type := String → Option (List Nat)

/-- The request dispatch of the data handler once a full request is present:
the looked-up `fileId` against `storedFiles`, then the disk read. Returns
the response written to the connection and the list of paths whose read was
attempted. -/
def dispatch (fsys : FileSystem) (files : List (String × FileMeta))
    (fileId : String) : Response × List String :=
  match mapGet fileId files with
  | some info =>
    match fsys info.filePath with
    | some content =>
      (Response.success fileId info.fileName content.length
        (getMimeType info.fileName) serverAddress (b64encode content),
       [info.filePath])
    | none => (Response.failure "Failed to read file" "read error",
       [info.filePath])
  | none => (Response.failure "File not found" ("No file with ID: " ++ fileId),
     [])

/-- Per-connection state: the accumulated `requestData` buffer, the responses
written so far, and the delays (ms) of the `conn.end` timers scheduled so
far. -/
structure ConnState where
  buffer : List Char
  writes : List Response
  endDelays : List Nat
deriving DecidableEq, Repr

def connInit : ConnState := ⟨[], [], []⟩

/-- One `data` event: append the chunk; if the buffer now contains a newline,
trim it to a `fileId`, dispatch, write the response and schedule
`conn.end` after 100 ms. The listener stays installed. -/
def handleData (fsys : FileSystem) (files : List (String × FileMeta))
    (st : ConnState) (chunk : List Char) : ConnState :=
  let buf := st.buffer ++ chunk
  if '\n' ∈ buf then
    let fileId := String.mk (jsTrim buf)
    let resp := (dispatch fsys files fileId).1
    ⟨buf, st.writes ++ [resp], st.endDelays ++ [100]⟩
  else
    ⟨buf, st.writes, st.endDelays⟩

/-- A whole sequence of `data` events on one connection. -/
def handleChunks (fsys : FileSystem) (files : List (String × FileMeta))
    (st : ConnState) (chunks : List (List Char)) : ConnState :=
  chunks.foldl (handleData fsys files) st

/-! ## MetadataStore (`db.js`)

Each operation is one round trip against the backing Cassandra store; the
round trip's outcome (result rows, or a driver error) is passed in
explicitly, and the function body is the JavaScript `try`/`catch` logic
around it. `Except.error` models a rethrown (propagated) exception,
`Except.ok` a normal return. -/

inductive DbOutcome (α : Type) where
  | ok (val : α) : DbOutcome α
  | err (msg : String) : DbOutcome α
deriving DecidableEq, Repr

/-- A row of the `fs_metadata.files` table (`file_size` is a nullable
bigint). -/
structure DbRow where
  file_id : String
  file_path : String
  file_name : String
  file_size : Option Int
  uploaded_at : String
deriving DecidableEq, Repr

/-- The record shape `db.js` returns to callers
(`fileSize` is stringified, `'0'` when the column is null). -/
structure DbFileRecord where
  fileId : String
  filePath : String
  fileName : String
  fileSizeStr : String
  uploadedAt : String
deriving DecidableEq, Repr

def rowToRecord (r : DbRow) : DbFileRecord :=
  ⟨r.file_id, r.file_path, r.file_name,
   match r.file_size with
   | some n => toString n
   | none => "0",
   r.uploaded_at⟩

/-- `getFileMetadata`: empty result → `null`; first row otherwise; a driver
error is rethrown. -/
def getFileMetadataDb (rt : DbOutcome (List DbRow)) :
    Except String (Option DbFileRecord) :=
  match rt with
  | .err m => .error m
  | .ok [] => .ok none
  | .ok (r :: _) => .ok (some (rowToRecord r))

/-- `getAllFiles`: maps every row; a driver error is rethrown. -/
def getAllFilesDb (rt : DbOutcome (List DbRow)) :
    Except String (List DbFileRecord) :=
  match rt with
  | .err m => .error m
  | .ok rows => .ok (rows.map rowToRecord)

/-- `storeFileMetadata`: returns `true`; a driver error is rethrown. -/
def storeFileMetadataDb (rt : DbOutcome Unit) : Except String Bool :=
  match rt with
  | .err m => .error m
  | .ok _ => .ok true

/-- `deleteFileMetadata`: returns `true`; a driver error is rethrown. -/
def deleteFileMetadataDb (rt : DbOutcome Unit) : Except String Bool :=
  match rt with
  | .err m => .error m
  | .ok _ => .ok true

/-- `fileExists`: `rows.length > 0`; the `catch` block logs and
`return false` — the driver error is swallowed, not rethrown. -/
def fileExistsDb (rt : DbOutcome (List DbRow)) : Except String Bool :=
  match rt with
  | .err _ => .ok false
  | .ok rows => .ok (decide (0 < rows.length))

/-- `logAccess`: best-effort; the `catch` block logs and `return false`. -/
def logAccessDb (rt : DbOutcome Unit) : Except String Bool :=
  match rt with
  | .err _ => .ok false
  | .ok _ => .ok true

/-! ## RehydrationReconciler (`rehydrateDHT` in `server.js`, lines 570–603)

The whole fetch-and-loop is wrapped in a single `try`/`catch`; the `catch`
logs and returns normally ("rehydration failure shouldn't prevent server
startup"). `fsE` models `fs.existsSync`, `aOk r` models whether
`dhtService.announceFile(...)` for record `r` resolves (`false` = it
throws). -/

/-- Accumulate leading decimal digits (JS `parseInt` stops at the first
non-digit). -/
def digitsToNat : List Char → Nat → Nat
  | [], acc => acc
  | c :: t, acc =>
    if c.isDigit then digitsToNat t (acc * 10 + (c.toNat - 48)) else acc

/-- JS `parseInt` on the non-negative decimal strings `getAllFiles`
produces. -/
def jsParseInt (s : String) : Nat := digitsToNat s.data 0

/-- The observable outcome of one rehydration pass. -/
structure RehydrateResult where
  /-- the `announceFile(fileId, filePath, fileName, parseInt(fileSize))`
  calls invoked, in order (a rejected call is still invoked) -/
  announceCalls : List (String × String × String × Nat)
  /-- the `File missing on disk` warnings, one per skipped record -/
  warnMissing : List String
  /-- how many records the loop body ran for -/
  processed : Nat
  /-- whether the surrounding `catch` fired -/
  errorCaught : Bool
  /-- whether an error propagated out of `rehydrateDHT` (aborting startup) -/
  throwsOut : Bool
  /-- `deleteFileMetadata` calls issued (the loop contains none) -/
  deletes : List String
deriving DecidableEq, Repr

/-- The `for (const file of files)` loop. An `announceFile` rejection is
caught by the function-level `catch`, which stops the loop. -/
def rehydrateLoop (fsE : String → Bool) (aOk : DbFileRecord → Bool) :
    List DbFileRecord → RehydrateResult
  | [] => ⟨[], [], 0, false, false, []⟩
  | r :: rest =>
    if fsE r.filePath then
      if aOk r then
        let res := rehydrateLoop fsE aOk rest
        ⟨(r.fileId, r.filePath, r.fileName, jsParseInt r.fileSizeStr) ::
           res.announceCalls,
         res.warnMissing, res.processed + 1, res.errorCaught, false,
         res.deletes⟩
      else
        ⟨[(r.fileId, r.filePath, r.fileName, jsParseInt r.fileSizeStr)],
         [], 1, true, false, []⟩
    else
      let res := rehydrateLoop fsE aOk rest
      ⟨res.announceCalls, r.fileName :: res.warnMissing, res.processed + 1,
       res.errorCaught, false, res.deletes⟩

/-- `rehydrateDHT()`: fetch all records (`rt`), early-return on an empty
list, iterate; any error reaching the `catch` is logged and swallowed. -/
def rehydrateDHT (rt : DbOutcome (List DbFileRecord)) (fsE : String → Bool)
    (aOk : DbFileRecord → Bool) : RehydrateResult :=
  match rt with
  | .err _ => ⟨[], [], 0, true, false, []⟩
  | .ok files =>
    if files.length = 0 then ⟨[], [], 0, false, false, []⟩
    else rehydrateLoop fsE aOk files

/-! ## Helper lemmas -/

theorem dropWhile_of_all_false {α : Type} (p : α → Bool) :
    ∀ l : List α, (∀ c ∈ l, p c = false) → l.dropWhile p = l
  | [], _ => rfl
  | a :: t, h => by
    have ha : p a = false := h a (by simp)
    simp [List.dropWhile, ha]

/-- Trimming a request line `l ++ "\n"` recovers `l` when `l` itself holds
no whitespace. -/
theorem jsTrim_append_newline (l : List Char)
    (h : ∀ c ∈ l, isWsChar c = false) : jsTrim (l ++ ['\n']) = l := by
  cases l with
  | nil => rfl
  | cons a t =>
    have ha : isWsChar a = false := h a (by simp)
    have step1 : ((a :: t) ++ ['\n']).dropWhile isWsChar = (a :: t) ++ ['\n'] := by
      simp [List.dropWhile, ha]
    have step2 : ((a :: t) ++ ['\n']).reverse = '\n' :: (a :: t).reverse := by
      simp
    have hwsn : isWsChar '\n' = true := by decide
    have step3 : ('\n' :: (a :: t).reverse).dropWhile isWsChar =
        (a :: t).reverse := by
      simp only [List.dropWhile, hwsn]
      exact dropWhile_of_all_false isWsChar _
        (fun c hc => h c (List.mem_reverse.mp hc))
    rw [jsTrim, step1, step2, step3, List.reverse_reverse]

theorem joinTopic_idem (t : List Nat) (l : List (List Nat)) :
    joinTopic t (joinTopic t l) = joinTopic t l := by
  by_cases h : t ∈ l
  · simp [joinTopic, h]
  · simp [joinTopic, h]

theorem filter_length_split {α : Type} (p : α → Bool) :
    ∀ l : List α,
      (l.filter p).length + (l.filter (fun a => !p a)).length = l.length
  | [] => rfl
  | a :: t => by
    by_cases h : p a
    · simp only [List.filter, h, Bool.not_true, List.length_cons]
      have := filter_length_split p t
      omega
    · have hf : p a = false := (Bool.not_eq_true _).mp h
      simp only [List.filter, hf, Bool.not_false, List.length_cons]
      have := filter_length_split p t
      omega

/-- An all-miss file system (every read throws). -/
def fsysNone : FileSystem := fun _ => none

/-- A `data` event whose accumulated buffer contains a newline: one response
write and one `conn.end` timer (100 ms), buffer kept. -/
theorem handleData_write (fsys : FileSystem)
    (files : List (String × FileMeta)) (st : ConnState) (chunk : List Char)
    (h : '\n' ∈ st.buffer ++ chunk) :
    handleData fsys files st chunk =
      ⟨st.buffer ++ chunk,
       st.writes ++
         [(dispatch fsys files (String.mk (jsTrim (st.buffer ++ chunk)))).1],
       st.endDelays ++ [100]⟩ := by
  simp [handleData, h]

/-- A `data` event without a full line yet: the chunk is buffered in full and
nothing else happens — no response, no close, no bound check. -/
theorem handleData_nowrite (fsys : FileSystem)
    (files : List (String × FileMeta)) (st : ConnState) (chunk : List Char)
    (h : '\n' ∉ st.buffer ++ chunk) :
    handleData fsys files st chunk =
      ⟨st.buffer ++ chunk, st.writes, st.endDelays⟩ := by
  simp [handleData, h]

/-! ## Claims -/

/-- **C9** Topic derivation is a pure total function on identifier strings:
the topic the announcing server derives equals SHA-256 of the id's bytes, is
exactly 32 bytes long, and for equal ids the announcing-server side and the
lookup-client side derive byte-identical topics. -/
theorem deriveTopic_pure_deterministic (f1 f2 : String) (h : f1 = f2) :
    deriveTopicServer f1 = deriveTopicClient f2 ∧
    (deriveTopicServer f1).length = 32 ∧
    deriveTopicServer f1 = sha256 (utf8Bytes f1) := by
  subst h
  exact ⟨rfl, sha256_length _, rfl⟩

theorem deriveTopic_pure_deterministic_witness :
    deriveTopicServer "f1" = deriveTopicClient "f1" ∧
    (deriveTopicServer "f1").length = 32 ∧
    deriveTopicServer "f1" = sha256 (utf8Bytes "f1") :=
  deriveTopic_pure_deterministic "f1" "f1" rfl

/-- **C8** `announceFile` is idempotent per `fileId`: announcing the same id
twice (with any parameters) yields exactly the node state of the second call
alone — the local mappings are overwritten and the same topic is re-joined
without error — and `hasFile` remains true; the returned object also equals
the second call's. -/
theorem announceFile_idempotent (st : DHTState) (f p1 n1 : String) (s1 : Nat)
    (t1 p2 n2 : String) (s2 : Nat) (t2 : String) :
    (announceFile (announceFile st f p1 n1 s1 t1).1 f p2 n2 s2 t2).1 =
      (announceFile st f p2 n2 s2 t2).1 ∧
    hasFile (announceFile (announceFile st f p1 n1 s1 t1).1 f p2 n2 s2 t2).1
      f = true ∧
    (announceFile (announceFile st f p1 n1 s1 t1).1 f p2 n2 s2 t2).2 =
      (announceFile st f p2 n2 s2 t2).2 := by
  refine ⟨?_, ?_, rfl⟩
  · simp only [announceFile]
    rw [mapSet_mapSet, mapSet_mapSet, joinTopic_idem]
  · simp only [announceFile, hasFile]
    rw [mapGet_mapSet_self]
    rfl

/-- **C10** The two internal maps of the node stay synchronized in every
reachable state: for every `fileId`, `getFilePath` equals the `filePath`
field of `getFileMetadata` (so one is present exactly when the other is),
and `hasFile` is true exactly when `getFileMetadata` returns a record. -/
inductive DHTReach : DHTState → Prop where
  | init : DHTReach dhtInit
  | step (st : DHTState) (f p n : String) (s : Nat) (t : String) :
      DHTReach st → DHTReach (announceFile st f p n s t).1

theorem maps_synchronized (st : DHTState) (h : DHTReach st) :
    ∀ f : String,
      (getFileMetadata st f).map (fun m => m.filePath) = getFilePath st f ∧
      hasFile st f = (getFileMetadata st f).isSome := by
  induction h with
  | init => exact fun f => ⟨rfl, rfl⟩
  | step st f p n s t hr ih =>
    intro f'
    refine ⟨?_, rfl⟩
    by_cases hf : f' = f
    · subst hf
      simp only [getFileMetadata, getFilePath, announceFile]
      rw [mapGet_mapSet_self, mapGet_mapSet_self]
      rfl
    · simp only [getFileMetadata, getFilePath, announceFile]
      rw [mapGet_mapSet_ne _ _ _ _ hf, mapGet_mapSet_ne _ _ _ _ hf]
      exact (ih f').1

theorem maps_synchronized_witness :
    ((getFileMetadata (announceFile dhtInit "f1" "/tmp/a" "a.txt" 3 "T").1
        "f1").map (fun m => m.filePath) =
      getFilePath (announceFile dhtInit "f1" "/tmp/a" "a.txt" 3 "T").1 "f1") ∧
    (hasFile (announceFile dhtInit "f1" "/tmp/a" "a.txt" 3 "T").1 "f1" =
      (getFileMetadata (announceFile dhtInit "f1" "/tmp/a" "a.txt" 3 "T").1
        "f1").isSome) :=
  maps_synchronized _ (DHTReach.step _ _ _ _ _ _ DHTReach.init) "f1"

/-- **C6 counterexample** With the backing store unavailable, `fileExists`
returns normally with `false` instead of surfacing the failure: the error is
swallowed into a normal return value. -/
theorem fileExists_swallows_failure :
    fileExistsDb (DbOutcome.err "Cassandra unavailable") = Except.ok false :=
  rfl

/-- **C6 (amended)** `put`, `get`, `list` and `delete` surface a failed
backing-store round trip to their caller as a propagated error, but `exists`
swallows the failure and returns `false` as a normal value. -/
theorem metadataStore_failure_surfacing :
    ∀ m : String,
      getFileMetadataDb (DbOutcome.err m) = Except.error m ∧
      getAllFilesDb (DbOutcome.err m) = Except.error m ∧
      storeFileMetadataDb (DbOutcome.err m) = Except.error m ∧
      deleteFileMetadataDb (DbOutcome.err m) = Except.error m ∧
      fileExistsDb (DbOutcome.err m) = Except.ok false :=
  fun _ => ⟨rfl, rfl, rfl, rfl, rfl⟩

/-- **C7** A wire-protocol request for a `fileId` absent from the node's
local mapping writes exactly one response of the failure shape
`{success:false, error, message}` carrying the not-found error, and no file
read is attempted. -/
theorem unknownId_notFound (fsys : FileSystem)
    (files : List (String × FileMeta)) (f : String)
    (habsent : mapGet f files = none)
    (hws : ∀ c ∈ f.data, isWsChar c = false) :
    (handleData fsys files connInit (f.data ++ ['\n'])).writes =
      [Response.failure "File not found" ("No file with ID: " ++ f)] ∧
    (dispatch fsys files f).2 = [] ∧
    ((dispatch fsys files f).1.isSuccess = false) := by
  have htrim : jsTrim (f.data ++ ['\n']) = f.data :=
    jsTrim_append_newline f.data hws
  have hmem : '\n' ∈ connInit.buffer ++ (f.data ++ ['\n']) := by simp
  have hdisp : dispatch fsys files f =
      (Response.failure "File not found" ("No file with ID: " ++ f), []) := by
    simp [dispatch, habsent]
  refine ⟨?_, by simp [hdisp], by simp [hdisp, Response.isSuccess]⟩
  have htrim' : jsTrim (connInit.buffer ++ (f.data ++ ['\n'])) = f.data :=
    htrim
  have hmk : String.mk f.data = f := rfl
  rw [handleData_write fsys files connInit _ hmem]
  simp only [htrim', hmk, hdisp]
  rfl

theorem unknownId_notFound_witness :
    (handleData fsysNone [] connInit (("nope" : String).data ++ ['\n'])).writes =
      [Response.failure "File not found" ("No file with ID: " ++ "nope")] ∧
    (dispatch fsysNone [] "nope").2 = [] ∧
    ((dispatch fsysNone [] "nope").1.isSuccess = false) :=
  unknownId_notFound fsysNone [] "nope" rfl (by decide)

/-- **C1** Startup rehydration (`rehydrateDHT` in `server.js`): for a list
of records of which some have no backing file, when every announce succeeds
the reconciler issues exactly one announce per record whose file exists
(with that record's `fileId`, `filePath`, `fileName` and parsed `fileSize`),
warns once per record whose file is missing, deletes nothing, and neither
throws nor lets any error reach the catch — so startup is not aborted. -/
theorem rehydration_counts (files : List DbFileRecord) (fsE : String → Bool)
    (aOk : DbFileRecord → Bool) (h : ∀ r ∈ files, aOk r = true) :
    (rehydrateDHT (DbOutcome.ok files) fsE aOk).announceCalls =
      (files.filter (fun r => fsE r.filePath)).map
        (fun r => (r.fileId, r.filePath, r.fileName,
                   jsParseInt r.fileSizeStr)) ∧
    (rehydrateDHT (DbOutcome.ok files) fsE aOk).warnMissing =
      (files.filter (fun r => !fsE r.filePath)).map (fun r => r.fileName) ∧
    (rehydrateDHT (DbOutcome.ok files) fsE aOk).throwsOut = false ∧
    (rehydrateDHT (DbOutcome.ok files) fsE aOk).errorCaught = false ∧
    (rehydrateDHT (DbOutcome.ok files) fsE aOk).deletes = [] ∧
    (rehydrateDHT (DbOutcome.ok files) fsE aOk).announceCalls.length +
      (rehydrateDHT (DbOutcome.ok files) fsE aOk).warnMissing.length =
      files.length := by
  have main : ∀ fs : List DbFileRecord, (∀ r ∈ fs, aOk r = true) →
      rehydrateLoop fsE aOk fs =
        ⟨(fs.filter (fun r => fsE r.filePath)).map
            (fun r => (r.fileId, r.filePath, r.fileName,
                       jsParseInt r.fileSizeStr)),
         (fs.filter (fun r => !fsE r.filePath)).map (fun r => r.fileName),
         fs.length, false, false, []⟩ := by
    intro fs
    induction fs with
    | nil => intro _; rfl
    | cons r rest ih =>
      intro hall
      have har : aOk r = true := hall r (by simp)
      have hrest := ih (fun x hx => hall x (by simp [hx]))
      by_cases hfe : fsE r.filePath
      · simp [rehydrateLoop, hfe, har, hrest, List.filter]
      · have hfe' : fsE r.filePath = false := (Bool.not_eq_true _).mp hfe
        simp [rehydrateLoop, hfe', hrest, List.filter]
  by_cases hlen : files.length = 0
  · have hnil : files = [] := List.eq_nil_of_length_eq_zero hlen
    subst hnil
    exact ⟨rfl, rfl, rfl, rfl, rfl, rfl⟩
  · have hred : rehydrateDHT (DbOutcome.ok files) fsE aOk =
        rehydrateLoop fsE aOk files := by
      simp [rehydrateDHT, hlen]
    rw [hred, main files h]
    refine ⟨rfl, rfl, rfl, rfl, rfl, ?_⟩
    simp only [List.length_map]
    exact filter_length_split (fun r => fsE r.filePath) files

/-- Three concrete records for witnesses and counterexamples. -/
def recA : DbFileRecord := ⟨"ida", "/files/a", "a.txt", "10", "T1"⟩
def recB : DbFileRecord := ⟨"idb", "/gone", "b.txt", "20", "T2"⟩
def recC : DbFileRecord := ⟨"idc", "/files/c", "c.txt", "30", "T3"⟩

/-- A disk on which only `recB`'s path is missing. -/
def fsE0 : String → Bool := fun p => p != "/gone"

theorem rehydration_counts_witness :
    (rehydrateDHT (DbOutcome.ok [recA, recB, recC]) fsE0
        (fun _ => true)).announceCalls =
      (([recA, recB, recC].filter (fun r => fsE0 r.filePath)).map
        (fun r => (r.fileId, r.filePath, r.fileName,
                   jsParseInt r.fileSizeStr))) ∧
    (rehydrateDHT (DbOutcome.ok [recA, recB, recC]) fsE0
        (fun _ => true)).warnMissing =
      (([recA, recB, recC].filter (fun r => !fsE0 r.filePath)).map
        (fun r => r.fileName)) ∧
    (rehydrateDHT (DbOutcome.ok [recA, recB, recC]) fsE0
        (fun _ => true)).throwsOut = false ∧
    (rehydrateDHT (DbOutcome.ok [recA, recB, recC]) fsE0
        (fun _ => true)).errorCaught = false ∧
    (rehydrateDHT (DbOutcome.ok [recA, recB, recC]) fsE0
        (fun _ => true)).deletes = [] ∧
    (rehydrateDHT (DbOutcome.ok [recA, recB, recC]) fsE0
        (fun _ => true)).announceCalls.length +
      (rehydrateDHT (DbOutcome.ok [recA, recB, recC]) fsE0
        (fun _ => true)).warnMissing.length = [recA, recB, recC].length :=
  rehydration_counts [recA, recB, recC] fsE0 (fun _ => true)
    (fun _ _ => rfl)

/-- **C2 counterexample** Both records' files exist and only the first
record's announce fails, yet the second record is never processed: the loop
stops after one record and no announce call is made — refuting that the
remaining records are still processed. -/
theorem rehydration_failure_not_isolated :
    (rehydrateDHT (DbOutcome.ok [recA, recC]) (fun _ => true)
        (fun r => r.fileId != "ida")).announceCalls =
      [("ida", "/files/a", "a.txt", 10)] ∧
    (rehydrateDHT (DbOutcome.ok [recA, recC]) (fun _ => true)
        (fun r => r.fileId != "ida")).processed = 1 ∧
    (rehydrateDHT (DbOutcome.ok [recA, recC]) (fun _ => true)
        (fun r => r.fileId != "ida")).errorCaught = true := by
  refine ⟨?_, ?_, ?_⟩ <;> rfl

/-- **C2 (amended)** A failure while processing one record is caught by the
single `try`/`catch` wrapping the whole pass: the reconciler logs it and
returns normally, but the remaining records are **not** processed (no
further announce, warning or any other handling); only startup itself is
not aborted. -/
theorem rehydration_failure_aborts_pass (r : DbFileRecord)
    (rest : List DbFileRecord) (fsE : String → Bool)
    (aOk : DbFileRecord → Bool) (hfe : fsE r.filePath = true)
    (ha : aOk r = false) :
    rehydrateDHT (DbOutcome.ok (r :: rest)) fsE aOk =
      ⟨[(r.fileId, r.filePath, r.fileName, jsParseInt r.fileSizeStr)],
       [], 1, true, false, []⟩ := by
  have hlen : (r :: rest).length ≠ 0 := by simp
  simp [rehydrateDHT, hlen, rehydrateLoop, hfe, ha]

theorem rehydration_failure_aborts_pass_witness :
    rehydrateDHT (DbOutcome.ok [recA, recC]) (fun _ => true)
      (fun r => r.fileId != "ida") =
      ⟨[(recA.fileId, recA.filePath, recA.fileName,
         jsParseInt recA.fileSizeStr)], [], 1, true, false, []⟩ :=
  rehydration_failure_aborts_pass recA [recC] (fun _ => true)
    (fun r => r.fileId != "ida") rfl (by decide)

/-- **C4 counterexample** There is no buffered-request cap: for any proposed
bound there is a newline-free input exceeding it after which the connection
has neither written a rejection nor scheduled a close, and the whole input
sits in the buffer. -/
theorem no_request_size_bound :
    ¬ ∃ cap : Nat, ∀ n : Nat, cap < n →
      (handleChunks fsysNone [] connInit
          [List.replicate n 'A']).endDelays ≠ [] ∨
      (handleChunks fsysNone [] connInit [List.replicate n 'A']).writes ≠ [] ∨
      (handleChunks fsysNone [] connInit
          [List.replicate n 'A']).buffer.length < n := by
  rintro ⟨cap, h⟩
  have hnonl : '\n' ∉ connInit.buffer ++ List.replicate (cap + 1) 'A' := by
    simp [connInit, List.mem_replicate]
  have hrun : handleChunks fsysNone [] connInit
      [List.replicate (cap + 1) 'A'] =
      ⟨connInit.buffer ++ List.replicate (cap + 1) 'A', connInit.writes,
       connInit.endDelays⟩ := by
    simp only [handleChunks, List.foldl]
    exact handleData_nowrite fsysNone [] connInit _ hnonl
  rcases h (cap + 1) (by omega) with hc | hc | hc
  · rw [hrun] at hc
    exact hc rfl
  · rw [hrun] at hc
    exact hc rfl
  · rw [hrun] at hc
    simp [connInit] at hc

/-- **C4 (amended)** The implementation imposes no maximum buffered-request
size: any data without a newline is appended to the per-connection buffer in
full, with no response written, no close scheduled and no bound checked, so
the buffer grows without limit as such chunks keep arriving (the handler
itself is total, so the process does not crash). -/
theorem buffer_grows_unbounded (fsys : FileSystem)
    (files : List (String × FileMeta)) (st : ConnState) (chunk : List Char)
    (h : '\n' ∉ st.buffer ++ chunk) :
    handleData fsys files st chunk =
      ⟨st.buffer ++ chunk, st.writes, st.endDelays⟩ :=
  handleData_nowrite fsys files st chunk h

theorem buffer_grows_unbounded_witness :
    handleData fsysNone [] connInit ['A', 'B'] = ⟨['A', 'B'], [], []⟩ :=
  buffer_grows_unbounded fsysNone [] connInit ['A', 'B'] (by decide)

/-- **C5 counterexample** On one connection, the chunk sequence
`["f1\n", "x"]` — a newline-terminated request followed by one more byte —
produces **two** response writes, not exactly one: the data listener stays
installed after the first response and re-fires on the grown buffer. -/
theorem second_chunk_second_response :
    (handleChunks fsysNone [] connInit
        [['f', '1', '\n'], ['x']]).writes.length = 2 := by
  rfl

/-- **C5 (amended)** The server writes one response document and schedules a
server-side close 100 ms later at **every** `data` event whose accumulated
buffer contains a newline — so exactly one response for the first
newline-terminated request, but each further chunk arriving before the
scheduled close triggers an additional response write on the re-trimmed
buffer rather than being ignored. -/
theorem response_per_newline_event (fsys : FileSystem)
    (files : List (String × FileMeta)) (st : ConnState) (chunk : List Char)
    (h : '\n' ∈ st.buffer ++ chunk) :
    (handleData fsys files st chunk).writes =
      st.writes ++
        [(dispatch fsys files (String.mk (jsTrim (st.buffer ++ chunk)))).1] ∧
    (handleData fsys files st chunk).endDelays = st.endDelays ++ [100] := by
  rw [handleData_write fsys files st chunk h]
  exact ⟨rfl, rfl⟩

theorem response_per_newline_event_witness :
    (handleData fsysNone [] connInit ['f', '1', '\n']).writes =
      connInit.writes ++
        [(dispatch fsysNone []
            (String.mk (jsTrim (connInit.buffer ++ ['f', '1', '\n'])))).1] ∧
    (handleData fsysNone [] connInit ['f', '1', '\n']).endDelays =
      connInit.endDelays ++ [100] :=
  response_per_newline_event fsysNone [] connInit ['f', '1', '\n'] (by decide)

/-- **C3** Round trip: after `announceFile(f, p, name, size)` on a node
whose disk holds bytes `P` at `p`, a wire request of the line `f` followed
by a newline yields exactly one response with `success:true`, `fileId = f`,
`fileName = name`, `size` the byte length of `P`, and a `content` field
whose base64 decoding is exactly `P`. -/
theorem announce_then_request_roundtrip (st : DHTState)
    (f p name : String) (sz : Nat) (t : String) (fsys : FileSystem)
    (P : List Nat) (hws : ∀ c ∈ f.data, isWsChar c = false)
    (hfs : fsys p = some P) (hbytes : ∀ b ∈ P, b < 256) :
    (handleData fsys (announceFile st f p name sz t).1.storedFiles connInit
        (f.data ++ ['\n'])).writes =
      [Response.success f name P.length (getMimeType name) serverAddress
        (b64encode P)] ∧
    b64decode (b64encode P) = P := by
  refine ⟨?_, b64_roundtrip P hbytes⟩
  have hmem : '\n' ∈ connInit.buffer ++ (f.data ++ ['\n']) := by simp
  have htrim' : jsTrim (connInit.buffer ++ (f.data ++ ['\n'])) = f.data :=
    jsTrim_append_newline f.data hws
  have hmk : String.mk f.data = f := rfl
  have hlook : mapGet f (announceFile st f p name sz t).1.storedFiles =
      some ⟨p, name, sha256 (utf8Bytes f), sz, t, serverAddress⟩ := by
    simp only [announceFile]
    exact mapGet_mapSet_self _ _ _
  have hdisp : dispatch fsys (announceFile st f p name sz t).1.storedFiles f =
      (Response.success f name P.length (getMimeType name) serverAddress
        (b64encode P), [p]) := by
    simp [dispatch, hlook, hfs]
  rw [handleData_write fsys _ connInit _ hmem]
  simp only [htrim', hmk, hdisp]
  rfl

theorem announce_then_request_roundtrip_witness :
    (handleData (fun q => if q = "/tmp/a" then some [104, 105] else none)
        (announceFile dhtInit "f1" "/tmp/a" "a.txt" 2 "T").1.storedFiles
        connInit (("f1" : String).data ++ ['\n'])).writes =
      [Response.success "f1" "a.txt" ([104, 105] : List Nat).length
        (getMimeType "a.txt") serverAddress (b64encode [104, 105])] ∧
    b64decode (b64encode [104, 105]) = [104, 105] :=
  announce_then_request_roundtrip dhtInit "f1" "/tmp/a" "a.txt" 2 "T"
    (fun q => if q = "/tmp/a" then some [104, 105] else none) [104, 105]
    (by decide) (by simp) (by decide)

end Reslify
